import Mathlib

/-!
Verification of the TeleCaller AI call-coaching backend.

The definitions below are a shallow embedding of the Python sources under
`backend/`: audio feature extraction (`audio/features.py`), the suggestion
throttler (`utils/throttling.py`), the coaching rule set and engine
(`coaching/rules.py`, `coaching/engine.py`, `coaching/messages.py`), and the
per-chunk audio stream handler (`audio/stream_handler.py`).  Floating-point
values are modelled as real numbers (ℝ) where the source computes with
logarithms and square roots, and as rationals (ℚ) where only ordered-field
arithmetic occurs (timestamps, cooldowns).  Python dictionaries are modelled
as association lists, and a Python function that may raise is modelled with
`Option` (`none` = an exception escaped the function body).
-/

namespace TeleCaller

/-! ### Configuration (config.py, `Settings` defaults) -/

/-- Embeds the audio and rule-threshold fields of `Settings` in `config.py`,
at their declared default values. -/
structure Settings where
  audio_sample_rate : ℕ := 8000
  audio_chunk_size_ms : ℕ := 50
  sliding_window_seconds : ℕ := 5
  agent_wpm_threshold_fast : ℝ := 160
  agent_volume_threshold_loud : ℝ := -20
  agent_volume_threshold_soft : ℝ := -50
  silence_threshold_seconds : ℚ := 3
  interruption_cooldown_seconds : ℕ := 15

/-- The global `settings` instance of `config.py` with every field at its
default (no environment overrides). -/
def settings : Settings := {}

/-! ### Throttler (utils/throttling.py, `SuggestionThrottler`) -/

/-- Embeds the `rule_cooldowns` dictionary built in
`SuggestionThrottler.__init__` (rule name → cooldown seconds). -/
def rule_cooldowns : List (String × ℚ) :=
  [("SPEAKING_TOO_FAST", 30),
   ("SPEAKING_TOO_LOUD", 20),
   ("SPEAKING_TOO_SOFT", 25),
   ("INTERRUPTING_CUSTOMER", 15),
   ("TOO_MUCH_SILENCE", 10)]

/-- The cooldown the throttler applies to a rule name:
`self.rule_cooldowns.get(rule_name, 20)` — table lookup with default 20
(the literal used at both call sites in `throttling.py`). -/
def getCooldown (rule_name : String) : ℚ :=
  match rule_cooldowns.find? (fun p => p.1 == rule_name) with
  | some p => p.2
  | none => 20

/-- Embeds `SuggestionThrottler.can_trigger` with an explicit
`current_time` argument (the `None` default merely substitutes the wall
clock for that argument). -/
def can_trigger (rule_name : String) (last_trigger_time current_time : ℚ) : Bool :=
  if last_trigger_time == 0 then
    true
  else
    decide (current_time - last_trigger_time ≥ getCooldown rule_name)

/-- Embeds `SuggestionThrottler.get_cooldown_remaining` with an explicit
`current_time` argument. -/
def get_cooldown_remaining (rule_name : String) (last_trigger_time current_time : ℚ) : ℚ :=
  if last_trigger_time == 0 then
    0
  else
    max 0 (getCooldown rule_name - (current_time - last_trigger_time))

/-! ### Throttler claims -/

/-- Claim C4: `can_trigger` returns true whenever `last_trigger_time = 0`;
otherwise it returns true iff `current_time - last_trigger_time` is at least
the rule's cooldown; `get_cooldown_remaining` is never negative, is
monotonically non-increasing as `current_time` advances with the other
arguments fixed, and reaches exactly 0 once the cooldown has elapsed. -/
theorem can_trigger_get_cooldown_remaining_spec
    (rule_name : String) (last_trigger_time current_time : ℚ) :
    (last_trigger_time = 0 → can_trigger rule_name last_trigger_time current_time = true) ∧
    (last_trigger_time ≠ 0 →
      (can_trigger rule_name last_trigger_time current_time = true ↔
        current_time - last_trigger_time ≥ getCooldown rule_name)) ∧
    0 ≤ get_cooldown_remaining rule_name last_trigger_time current_time ∧
    (∀ t1 t2 : ℚ, t1 ≤ t2 →
      get_cooldown_remaining rule_name last_trigger_time t2 ≤
        get_cooldown_remaining rule_name last_trigger_time t1) ∧
    (current_time - last_trigger_time ≥ getCooldown rule_name →
      get_cooldown_remaining rule_name last_trigger_time current_time = 0) := by
  refine ⟨?_, ?_, ?_, ?_, ?_⟩
  · intro h
    simp [can_trigger, h]
  · intro h
    simp [can_trigger, h]
  · unfold get_cooldown_remaining
    split
    · exact le_refl 0
    · exact le_max_left 0 _
  · intro t1 t2 h12
    unfold get_cooldown_remaining
    split
    · exact le_refl 0
    · exact max_le_max (le_refl 0) (by linarith)
  · intro h
    unfold get_cooldown_remaining
    split
    · rfl
    · exact max_eq_left (by linarith)

/-- Concrete instantiation of the C4 theorem: the never-fired case permits
triggering, the general case is the cooldown comparison, and remaining
cooldown is non-increasing from time 10 to time 20. -/
theorem can_trigger_get_cooldown_remaining_spec_witness :
    can_trigger "SPEAKING_TOO_FAST" 0 7 = true ∧
    (can_trigger "SPEAKING_TOO_FAST" 5 40 = true ↔
      (40 : ℚ) - 5 ≥ getCooldown "SPEAKING_TOO_FAST") ∧
    get_cooldown_remaining "SPEAKING_TOO_FAST" 5 20 ≤
      get_cooldown_remaining "SPEAKING_TOO_FAST" 5 10 ∧
    get_cooldown_remaining "SPEAKING_TOO_FAST" 5 40 = 0 :=
  ⟨(can_trigger_get_cooldown_remaining_spec "SPEAKING_TOO_FAST" 0 7).1 rfl,
   (can_trigger_get_cooldown_remaining_spec "SPEAKING_TOO_FAST" 5 40).2.1 (by decide),
   (can_trigger_get_cooldown_remaining_spec "SPEAKING_TOO_FAST" 5 20).2.2.2.1 10 20
     (by decide),
   (can_trigger_get_cooldown_remaining_spec "SPEAKING_TOO_FAST" 5 40).2.2.2.2
     (by norm_num [getCooldown, rule_cooldowns])⟩

/-! ### Audio decoding and feature extraction (audio/features.py) -/

/-- A raw μ-law audio chunk: a sequence of bytes (values 0–255). -/
abbrev Chunk := List ℕ

/-- The exponent table of CPython's μ-law decoder (`audioop.ulaw2lin` with
width 2), entry `e` being `132 * (2 ^ e - 1)`. -/
def exp_lut : List ℤ := [0, 132, 396, 924, 1980, 4092, 8316, 16764]

/-- One μ-law byte to a 16-bit linear PCM sample, following CPython's
`st_ulaw2linear16` (the per-byte kernel of `audioop.ulaw2lin(chunk, 2)`
called by `decode_mulaw`): complement the byte, split into sign bit,
3-bit exponent and 4-bit mantissa, rebuild the magnitude from the exponent
table, and negate when the sign bit is set. -/
def ulaw2linear16 (b : ℕ) : ℤ :=
  let u := 255 - b % 256
  let exponent := (u / 16) % 8
  let mantissa := u % 16
  let sample := exp_lut.getD exponent 0 + (mantissa : ℤ) * 2 ^ (exponent + 3)
  if 128 ≤ u then -sample else sample

/-- Embeds `decode_mulaw`: μ-law bytes → 16-bit PCM samples → float
samples normalized to [-1, 1] by dividing by 32768.  The source's `except`
branch returns an empty array, but `audioop.ulaw2lin` with fixed width 2 is
total on byte strings, so the embedding is the total per-byte map (one PCM
sample per input byte, as `np.frombuffer` with `dtype=int16` yields). -/
noncomputable def decode_mulaw (audio_chunk : Chunk) : List ℝ :=
  audio_chunk.map (fun b => (ulaw2linear16 b : ℝ) / 32768)

/-- Embeds `calculate_rms_energy`: square root of the mean of the squared
samples, and 0 for an empty array. -/
noncomputable def calculate_rms_energy (audio_array : List ℝ) : ℝ :=
  if audio_array.length = 0 then 0
  else Real.sqrt ((audio_array.map (fun x => x ^ 2)).sum / audio_array.length)

/-- Embeds `calculate_volume_db`: `-60` when the RMS energy is 0, otherwise
`20 * log10(rms / reference)` clamped to `[-60, 0]`.  The source's default
`reference=1.0` is passed explicitly by every caller-facing statement. -/
noncomputable def calculate_volume_db (audio_array : List ℝ) (reference : ℝ) : ℝ :=
  let rms := calculate_rms_energy audio_array
  if rms = 0 then -60
  else max (-60) (min 0 (20 * Real.logb 10 (rms / reference)))

open scoped Classical

/-- Embeds `estimate_speaking_rate`: 0 for an empty buffer or zero total
duration; otherwise count chunks whose decoded samples are nonempty with RMS
energy above the 0.1 peak threshold, halve the count (syllables → words),
normalize by the buffer duration in minutes, and clamp to `[0, 300]`.  The
per-chunk `except/continue` is unreachable since decoding is total. -/
noncomputable def estimate_speaking_rate (audio_buffer : List Chunk) (sample_rate : ℕ) : ℝ :=
  if audio_buffer = [] then 0
  else
    let total_samples := (audio_buffer.map List.length).sum
    let duration_seconds : ℝ := (total_samples : ℝ) / (sample_rate : ℝ)
    if duration_seconds = 0 then 0
    else
      let peak_count := (audio_buffer.map (fun chunk =>
        let audio_array := decode_mulaw chunk
        if 0 < audio_array.length ∧ calculate_rms_energy audio_array > 0.1 then (1 : ℕ)
        else 0)).sum
      if duration_seconds > 0 then
        let words_estimate := ((peak_count : ℝ) / 2) / (duration_seconds / 60)
        min 300 (max 0 words_estimate)
      else 0

/-- Embeds `extract_audio_features`: decode the chunk; an empty decoded
array yields the silence defaults `(-60, 0, false)`; otherwise compute the
volume, the speaking rate over `buffer + [chunk]` when a nonempty buffer is
supplied (Python truthiness of `audio_buffer`), and the speaking flag
`volume_db > -40`.  The enclosing `try/except` of the source returns the
same silence defaults on any internal error; every operation in the body is
total in this embedding, so the handler is unreachable and the function is
total, modelling that extraction never raises past its boundary. -/
noncomputable def extract_audio_features (audio_chunk : Chunk)
    (audio_buffer : Option (List Chunk)) : ℝ × ℝ × Bool :=
  let audio_array := decode_mulaw audio_chunk
  if audio_array.length = 0 then ((-60 : ℝ), (0 : ℝ), false)
  else
    let volume_db := calculate_volume_db audio_array 1
    let wpm : ℝ :=
      match audio_buffer with
      | some buf => if buf = [] then 0 else estimate_speaking_rate (buf ++ [audio_chunk]) 8000
      | none => 0
    let is_speaking := decide (volume_db > -40)
    (volume_db, wpm, is_speaking)

/-! ### Feature-extraction claims -/

/-- RMS energy is never negative. -/
theorem calculate_rms_energy_nonneg (audio_array : List ℝ) :
    0 ≤ calculate_rms_energy audio_array := by
  unfold calculate_rms_energy
  split
  · exact le_refl 0
  · exact Real.sqrt_nonneg _

/-- Claim C6: `calculate_volume_db` (at the default reference 1) is
monotonically non-decreasing in the RMS energy of the sample sequence, its
result always lies in `[-60, 0]`, and an empty or all-zero sample sequence
yields exactly `-60`. -/
theorem calculate_volume_db_spec (s1 s2 : List ℝ) :
    (calculate_rms_energy s1 ≤ calculate_rms_energy s2 →
      calculate_volume_db s1 1 ≤ calculate_volume_db s2 1) ∧
    (-60 ≤ calculate_volume_db s1 1 ∧ calculate_volume_db s1 1 ≤ 0) ∧
    (s1 = [] → calculate_volume_db s1 1 = -60) ∧
    ((∀ x ∈ s1, x = 0) → calculate_volume_db s1 1 = -60) := by
  have hrange : ∀ s : List ℝ,
      -60 ≤ calculate_volume_db s 1 ∧ calculate_volume_db s 1 ≤ 0 := by
    intro s
    simp only [calculate_volume_db]
    by_cases hs : calculate_rms_energy s = 0
    · rw [if_pos hs]
      norm_num
    · rw [if_neg hs]
      exact ⟨le_max_left _ _, max_le (by norm_num) (min_le_left _ _)⟩
  have hzero : ∀ s : List ℝ, calculate_rms_energy s = 0 →
      calculate_volume_db s 1 = -60 := by
    intro s hs
    simp only [calculate_volume_db]
    rw [if_pos hs]
  refine ⟨?_, hrange s1, ?_, ?_⟩
  · intro h
    by_cases h1 : calculate_rms_energy s1 = 0
    · rw [hzero s1 h1]
      exact (hrange s2).1
    · have h1pos : 0 < calculate_rms_energy s1 :=
        lt_of_le_of_ne (calculate_rms_energy_nonneg s1) (Ne.symm h1)
      have h2pos : 0 < calculate_rms_energy s2 := lt_of_lt_of_le h1pos h
      simp only [calculate_volume_db]
      rw [if_neg h1, if_neg (ne_of_gt h2pos)]
      refine max_le_max (le_refl _) (min_le_min (le_refl 0) ?_)
      have hlog : Real.logb 10 (calculate_rms_energy s1) ≤
          Real.logb 10 (calculate_rms_energy s2) :=
        Real.logb_le_logb_of_le (by norm_num) h1pos h
      rw [div_one, div_one]
      linarith
  · intro h
    apply hzero
    rw [h]
    unfold calculate_rms_energy
    simp
  · intro h
    apply hzero
    unfold calculate_rms_energy
    split
    · rfl
    · have hsum : (s1.map (fun x => x ^ 2)).sum = 0 := by
        apply List.sum_eq_zero
        intro y hy
        rcases List.mem_map.mp hy with ⟨x, hx, hxy⟩
        rw [← hxy, h x hx]
        norm_num
      rw [hsum]
      simp

/-- Concrete instantiation of the C6 theorem at the empty sample list. -/
theorem calculate_volume_db_spec_witness :
    calculate_volume_db ([] : List ℝ) 1 ≤ calculate_volume_db ([] : List ℝ) 1 ∧
    calculate_volume_db ([] : List ℝ) 1 = -60 ∧
    calculate_volume_db ([] : List ℝ) 1 = -60 :=
  ⟨(calculate_volume_db_spec [] []).1 (le_refl _),
   (calculate_volume_db_spec [] []).2.2.1 rfl,
   (calculate_volume_db_spec [] []).2.2.2 (by simp)⟩

/-- Claim C7: for every list of audio chunks and every sample rate, the
estimated speaking rate lies in `[0, 300]`. -/
theorem estimate_speaking_rate_range (audio_buffer : List Chunk) (sample_rate : ℕ) :
    0 ≤ estimate_speaking_rate audio_buffer sample_rate ∧
    estimate_speaking_rate audio_buffer sample_rate ≤ 300 := by
  simp only [estimate_speaking_rate]
  split_ifs
  · norm_num
  · norm_num
  · exact ⟨le_min (by norm_num) (le_max_left 0 _), min_le_left _ _⟩
  · norm_num

/-- Claim C8: `extract_audio_features` is a total function (extraction
never propagates an exception); when decoding yields an empty sample
sequence it returns exactly the silence defaults `(-60, 0, false)`, and in
every case the returned speaking flag is true iff the volume computed from
the decoded chunk exceeds `-40` dB. -/
theorem extract_audio_features_spec (audio_chunk : Chunk)
    (audio_buffer : Option (List Chunk)) :
    (decode_mulaw audio_chunk = [] →
      extract_audio_features audio_chunk audio_buffer = (-60, 0, false)) ∧
    ((extract_audio_features audio_chunk audio_buffer).2.2 = true ↔
      calculate_volume_db (decode_mulaw audio_chunk) 1 > -40) := by
  by_cases h : (decode_mulaw audio_chunk).length = 0
  · have hnil : decode_mulaw audio_chunk = [] := List.length_eq_zero.mp h
    have hval : extract_audio_features audio_chunk audio_buffer = (-60, 0, false) := by
      simp only [extract_audio_features]
      rw [if_pos h]
    have hvol : calculate_volume_db (decode_mulaw audio_chunk) 1 = -60 := by
      rw [hnil]
      simp [calculate_volume_db, calculate_rms_energy]
    refine ⟨fun _ => hval, ?_⟩
    rw [hval, hvol]
    norm_num
  · have hval : (extract_audio_features audio_chunk audio_buffer).2.2 =
        decide (calculate_volume_db (decode_mulaw audio_chunk) 1 > -40) := by
      simp only [extract_audio_features]
      rw [if_neg h]
    refine ⟨fun hnil => absurd (by rw [hnil]; rfl) h, ?_⟩
    rw [hval]
    exact decide_eq_true_iff

/-- Concrete instantiation of the C8 theorem at the empty chunk, whose
decoded sample sequence is empty. -/
theorem extract_audio_features_spec_witness :
    extract_audio_features ([] : Chunk) none = (-60, 0, false) :=
  (extract_audio_features_spec [] none).1 rfl

/-- Claim C10: `can_trigger` returns true exactly when
`get_cooldown_remaining` returns 0, for the same arguments. -/
theorem can_trigger_iff_remaining_zero
    (rule_name : String) (last_trigger_time current_time : ℚ) :
    can_trigger rule_name last_trigger_time current_time = true ↔
      get_cooldown_remaining rule_name last_trigger_time current_time = 0 := by
  unfold can_trigger get_cooldown_remaining
  split
  · simp
  · rw [decide_eq_true_iff, max_eq_left_iff]
    constructor
    · intro h
      linarith
    · intro h
      linarith

/-! ### Suggestion messages (coaching/messages.py) -/

/-- Embeds the `SUGGESTION_MESSAGES` table: rule id → (message, severity). -/
def SUGGESTION_MESSAGES : List (String × String × String) :=
  [("TEST_RULE",
    "✅ System is working! Coaching is active and monitoring your call.", "low"),
   ("SPEAKING_TOO_FAST",
    "Slow down your pace slightly to sound more professional and clear.", "medium"),
   ("SPEAKING_TOO_LOUD",
    "Lower your tone slightly to sound calmer and more approachable.", "medium"),
   ("SPEAKING_TOO_SOFT",
    "Speak a bit louder to ensure the customer can hear you clearly.", "low"),
   ("INTERRUPTING_CUSTOMER",
    "Let the customer finish speaking before responding.", "high"),
   ("TOO_MUCH_SILENCE",
    "Acknowledge the customer or ask a follow-up question to keep the conversation flowing.",
    "medium")]

/-- Embeds `get_suggestion_message`: table lookup with the generic
low-severity fallback. -/
def get_suggestion_message (rule_type : String) : String × String :=
  match SUGGESTION_MESSAGES.find? (fun p => p.1 == rule_type) with
  | some p => p.2
  | none => ("Consider adjusting your communication style.", "low")

/-- A coaching suggestion as built by `create_suggestion`. -/
structure Suggestion where
  type : String
  message : String
  severity : String
  timestamp : ℚ

/-- Embeds `create_suggestion`. -/
def create_suggestion (rule_type : String) (timestamp : ℚ) : Suggestion :=
  let message_data := get_suggestion_message rule_type
  { type := rule_type
    message := message_data.1
    severity := message_data.2
    timestamp := timestamp }

/-! ### Session model -/

/-- Per-channel metrics: current volume, speaking-rate estimate and
speaking flag, as written by the stream handler and read by the rules. -/
structure ChannelMetrics where
  volume_db : ℝ
  wpm : ℝ
  is_speaking : Bool

/-- The per-session metrics record: one `ChannelMetrics` per side, the
cumulative interruption counter and the last metrics-update time. -/
structure SessionMetrics where
  agent : ChannelMetrics
  customer : ChannelMetrics
  interruptions : ℕ
  last_update_time : ℚ

/-- Modelled from the spec: the `sessions.models` module (class
`CoachingSession`) is imported by `engine.py` and `stream_handler.py` but
is not among the provided sources.  Fields follow spec §3 (session
identifier, creation time, active flag, one channel buffer and one channel
metrics per side, interruption counter, last-update timestamp,
last-suggestion type/time, and the rule-name → last-fired-time mapping) and
match every field access in the provided sources.  The Python dictionary
`active_rules` is modelled as an association list. -/
structure CoachingSession where
  call_session_id : String
  created_at : ℚ
  is_active : Bool
  agent_audio_buffer : List Chunk
  customer_audio_buffer : List Chunk
  metrics : SessionMetrics
  active_rules : List (String × ℚ)
  last_suggestion_time : ℚ
  last_suggestion_type : Option String

/-- `d.get(k, default)` on the rule-name → last-fired-time dictionary. -/
def dictGetD (m : List (String × ℚ)) (k : String) (default : ℚ) : ℚ :=
  match m.find? (fun p => p.1 == k) with
  | some p => p.2
  | none => default

/-- `d[k] = v` on the dictionary: overwrite the existing binding, or append
a new one. -/
def dictInsert (m : List (String × ℚ)) (k : String) (v : ℚ) : List (String × ℚ) :=
  if m.any (fun p => p.1 == k) then
    m.map (fun p => if p.1 == k then (k, v) else p)
  else m ++ [(k, v)]

/-! ### Coaching rules (coaching/rules.py) -/

/-- A coaching rule as the engine consumes it, after `CoachingRule` in
`rules.py`: a name, a declared per-rule cooldown, and a predicate over
(session, current time).  A predicate result of `none` models `evaluate`
raising an exception. -/
structure CoachingRule where
  name : String
  cooldown_seconds : ℕ
  evaluate : CoachingSession → ℚ → Option Bool

/-- Embeds `TestRule` (the liveness probe): fires once the call has been
active for 3 seconds and the rule has never fired (no `TEST_RULE` key in
`active_rules`). -/
def TestRule : CoachingRule where
  name := "TEST_RULE"
  cooldown_seconds := 60
  evaluate := fun session current_time =>
    some (decide (current_time - session.created_at ≥ 3) &&
      !(session.active_rules.any (fun p => p.1 == "TEST_RULE")))

/-- Embeds `SpeakingTooFastRule`: agent speaking and WPM above the
configured fast threshold. -/
noncomputable def SpeakingTooFastRule : CoachingRule where
  name := "SPEAKING_TOO_FAST"
  cooldown_seconds := 30
  evaluate := fun session _ =>
    some (session.metrics.agent.is_speaking &&
      decide (session.metrics.agent.wpm > settings.agent_wpm_threshold_fast))

/-- Embeds `SpeakingTooLoudRule`: agent speaking and volume above the loud
threshold. -/
noncomputable def SpeakingTooLoudRule : CoachingRule where
  name := "SPEAKING_TOO_LOUD"
  cooldown_seconds := 20
  evaluate := fun session _ =>
    some (session.metrics.agent.is_speaking &&
      decide (session.metrics.agent.volume_db > settings.agent_volume_threshold_loud))

/-- Embeds `SpeakingTooSoftRule`: agent speaking and volume below the soft
threshold. -/
noncomputable def SpeakingTooSoftRule : CoachingRule where
  name := "SPEAKING_TOO_SOFT"
  cooldown_seconds := 25
  evaluate := fun session _ =>
    some (session.metrics.agent.is_speaking &&
      decide (session.metrics.agent.volume_db < settings.agent_volume_threshold_soft))

/-- Embeds `InterruptingCustomerRule`: both sides marked speaking. -/
def InterruptingCustomerRule : CoachingRule where
  name := "INTERRUPTING_CUSTOMER"
  cooldown_seconds := 15
  evaluate := fun session _ =>
    some (session.metrics.agent.is_speaking && session.metrics.customer.is_speaking)

/-- Embeds `TooMuchSilenceRule`: neither side speaking and the time since
the last metrics update above the silence threshold. -/
def TooMuchSilenceRule : CoachingRule where
  name := "TOO_MUCH_SILENCE"
  cooldown_seconds := 10
  evaluate := fun session current_time =>
    some ((!session.metrics.agent.is_speaking && !session.metrics.customer.is_speaking) &&
      decide (current_time - session.metrics.last_update_time >
        settings.silence_threshold_seconds))

/-- Embeds `ALL_RULES`, in the evaluation order of `rules.py`. -/
noncomputable def ALL_RULES : List CoachingRule :=
  [TestRule, SpeakingTooFastRule, SpeakingTooLoudRule, SpeakingTooSoftRule,
   InterruptingCustomerRule, TooMuchSilenceRule]

/-! ### Coaching engine (coaching/engine.py) -/

/-- The rule loop of `CoachingEngine.evaluate_session`: iterate the rules
in order; a predicate exception (`none`) or a `false` result moves on; a
`true` result fires iff the throttler permits it, in which case the
suggestion is returned together with the mutated session
(`last_suggestion_time`, `last_suggestion_type`, and the rule's firing
time recorded in `active_rules`); a matching rule in cooldown is skipped
and the loop continues. -/
def evaluateRules (rules : List CoachingRule) (session : CoachingSession)
    (current_time : ℚ) : Option (Suggestion × CoachingSession) :=
  match rules with
  | [] => none
  | rule :: rest =>
    match rule.evaluate session current_time with
    | none => evaluateRules rest session current_time
    | some false => evaluateRules rest session current_time
    | some true =>
      let last_trigger_time := dictGetD session.active_rules rule.name 0
      if can_trigger rule.name last_trigger_time current_time then
        some (create_suggestion rule.name current_time,
          { session with
              last_suggestion_time := current_time
              last_suggestion_type := some rule.name
              active_rules := dictInsert session.active_rules rule.name current_time })
      else
        evaluateRules rest session current_time

/-- Embeds `CoachingEngine.evaluate_session`: an inactive session yields no
suggestion; otherwise the rule loop runs. -/
def evaluate_session (rules : List CoachingRule) (session : CoachingSession)
    (current_time : ℚ) : Option (Suggestion × CoachingSession) :=
  if session.is_active then evaluateRules rules session current_time else none

/-! ### Audio stream handler (audio/stream_handler.py) -/

/-- The buffer bound the source intends:
`(settings.sliding_window_seconds * 1000) // settings.audio_chunk_size_ms`. -/
def max_chunks : ℕ := settings.sliding_window_seconds * 1000 / settings.audio_chunk_size_ms

/-- Embeds `AudioStreamHandler._process_audio_chunk` for a resolved
session.  The module `stream_handler.py` never imports `settings`, so the
statement `max_chunks = (settings.sliding_window_seconds * 1000) // settings.audio_chunk_size_ms`
that follows each buffer append raises `NameError`; the enclosing
`except Exception` catches it, and processing of an inbound or outbound
chunk therefore ends immediately after the append — the eviction, the
feature extraction, the metrics updates, the interruption check and the
`last_update_time` update that follow in the source are unreachable.  An
empty payload or an inactive session returns before any mutation, and an
unrecognized track skips both branches and reaches only the
`last_update_time` update. -/
def processAudioChunk (session : CoachingSession) (track : String) (audio_chunk : Chunk)
    (current_time : ℚ) : CoachingSession :=
  if audio_chunk = [] then session
  else if session.is_active = false then session
  else if track = "inbound" then
    { session with customer_audio_buffer := session.customer_audio_buffer ++ [audio_chunk] }
  else if track = "outbound" then
    { session with agent_audio_buffer := session.agent_audio_buffer ++ [audio_chunk] }
  else
    { session with metrics := { session.metrics with last_update_time := current_time } }

/-! ### Dictionary lemmas -/

/-- Looking up key `k` after the overwrite map of `dictInsert` finds
`(k, v)` exactly where the original lookup found a binding of `k`. -/
theorem find?_key_map (k : String) (v : ℚ) (m : List (String × ℚ)) :
    (m.map (fun p => if p.1 == k then (k, v) else p)).find? (fun p => p.1 == k) =
      (m.find? (fun p => p.1 == k)).map (fun _ => (k, v)) := by
  induction m with
  | nil => rfl
  | cons p rest ih =>
    by_cases hk : p.1 = k
    · simp [List.find?_cons, hk]
    · simpa [List.find?_cons, hk] using ih

/-- Appending a binding of `k` to a map without a `k` binding makes the
lookup of `k` find it. -/
theorem find?_key_append (k : String) (v : ℚ) (m : List (String × ℚ))
    (h : ∀ p ∈ m, (p.1 == k) = false) :
    (m ++ [(k, v)]).find? (fun p => p.1 == k) = some (k, v) := by
  induction m with
  | nil => simp [List.find?_cons]
  | cons p rest ih =>
    have hk : p.1 ≠ k := by simpa using h p (List.mem_cons_self p rest)
    simpa [List.find?_cons, hk] using ih (fun q hq => h q (List.mem_cons_of_mem p hq))

/-- After `dictInsert m k v`, looking up `k` yields `v`. -/
theorem dictGetD_dictInsert (m : List (String × ℚ)) (k : String) (v : ℚ) :
    dictGetD (dictInsert m k v) k 0 = v := by
  unfold dictGetD dictInsert
  by_cases hany : m.any (fun p => p.1 == k) = true
  · rw [if_pos hany, find?_key_map]
    obtain ⟨p, hp, hpk⟩ := List.any_eq_true.mp hany
    cases hf : m.find? (fun p => p.1 == k) with
    | some q => simp
    | none =>
      have := List.find?_eq_none.mp hf p hp
      simp [hpk] at this
  · rw [if_neg hany]
    have hall : ∀ p ∈ m, (p.1 == k) = false := by
      intro p hp
      by_contra hcon
      exact hany (List.any_eq_true.mpr ⟨p, hp, by simpa using hcon⟩)
    rw [find?_key_append k v m hall]

/-! ### Engine claims -/

/-- When the rule loop returns a suggestion, some rule of the list matched
with its cooldown elapsed, the suggestion was built for that rule, and the
firing was recorded in the returned session's `active_rules`. -/
theorem evaluateRules_some_spec :
    ∀ (rules : List CoachingRule) (session : CoachingSession) (current_time : ℚ)
      (sug : Suggestion) (session' : CoachingSession),
      evaluateRules rules session current_time = some (sug, session') →
      ∃ rule ∈ rules,
        sug = create_suggestion rule.name current_time ∧
        rule.evaluate session current_time = some true ∧
        can_trigger rule.name (dictGetD session.active_rules rule.name 0) current_time = true ∧
        session'.active_rules = dictInsert session.active_rules rule.name current_time := by
  intro rules
  induction rules with
  | nil =>
    intro session current_time sug session' h
    simp [evaluateRules] at h
  | cons rule rest ih =>
    intro session current_time sug session' h
    rw [evaluateRules] at h
    cases heval : rule.evaluate session current_time with
    | none =>
      rw [heval] at h
      obtain ⟨r, hr, hspec⟩ := ih session current_time sug session' h
      exact ⟨r, List.mem_cons_of_mem _ hr, hspec⟩
    | some b =>
      cases b with
      | false =>
        rw [heval] at h
        obtain ⟨r, hr, hspec⟩ := ih session current_time sug session' h
        exact ⟨r, List.mem_cons_of_mem _ hr, hspec⟩
      | true =>
        rw [heval] at h
        by_cases hct :
          can_trigger rule.name (dictGetD session.active_rules rule.name 0) current_time = true
        · rw [if_pos hct] at h
          simp only [Option.some_inj, Prod.mk.injEq] at h
          obtain ⟨h1, h2⟩ := h
          refine ⟨rule, List.mem_cons_self _ _, h1.symm, heval, hct, ?_⟩
          rw [← h2]
        · rw [if_neg hct] at h
          obtain ⟨r, hr, hspec⟩ := ih session current_time sug session' h
          exact ⟨r, List.mem_cons_of_mem _ hr, hspec⟩

/-- Claim C2: an evaluation call returns at most one suggestion (its
result is an `Option`), and whenever `evaluate_session` returns one, some
rule of the list matched with `can_trigger` true for that rule's last
recorded firing time; the suggestion is the one `create_suggestion` builds
for that rule's name, and the firing time is recorded against the session
under the rule's name (so looking it up afterwards yields the evaluation
time); moreover a rule whose predicate holds but whose cooldown has not
elapsed is skipped and evaluation continues with the remaining rules. -/
theorem evaluate_session_fires_spec :
    (∀ (rules : List CoachingRule) (session : CoachingSession) (current_time : ℚ)
       (sug : Suggestion) (session' : CoachingSession),
      evaluate_session rules session current_time = some (sug, session') →
      ∃ rule ∈ rules,
        sug = create_suggestion rule.name current_time ∧
        rule.evaluate session current_time = some true ∧
        can_trigger rule.name (dictGetD session.active_rules rule.name 0) current_time = true ∧
        session'.active_rules = dictInsert session.active_rules rule.name current_time ∧
        dictGetD session'.active_rules rule.name 0 = current_time) ∧
    (∀ (rule : CoachingRule) (rest : List CoachingRule) (session : CoachingSession)
       (current_time : ℚ),
      rule.evaluate session current_time = some true →
      can_trigger rule.name (dictGetD session.active_rules rule.name 0) current_time = false →
      evaluateRules (rule :: rest) session current_time =
        evaluateRules rest session current_time) := by
  constructor
  · intro rules session current_time sug session' h
    rw [evaluate_session] at h
    by_cases hact : session.is_active = true
    · rw [if_pos hact] at h
      obtain ⟨rule, hmem, h1, h2, h3, h4⟩ :=
        evaluateRules_some_spec rules session current_time sug session' h
      refine ⟨rule, hmem, h1, h2, h3, h4, ?_⟩
      rw [h4]
      exact dictGetD_dictInsert session.active_rules rule.name current_time
    · rw [if_neg hact] at h
      exact absurd h (Option.noConfusion)
  · intro rule rest session current_time h1 h2
    rw [evaluateRules, h1]
    simp only [h2, Bool.false_eq_true, if_false]

/-- A rule whose predicate always holds, used to instantiate the engine
theorems on concrete inputs. -/
def witnessRule : CoachingRule where
  name := "SPEAKING_TOO_FAST"
  cooldown_seconds := 30
  evaluate := fun _ _ => some true

/-- A rule whose predicate raises (modelled by `none`). -/
def raisingRule : CoachingRule where
  name := "SPEAKING_TOO_LOUD"
  cooldown_seconds := 20
  evaluate := fun _ _ => none

/-- An everything-silent metrics snapshot for concrete sessions. -/
def witnessMetrics : SessionMetrics where
  agent := { volume_db := 0, wpm := 0, is_speaking := false }
  customer := { volume_db := 0, wpm := 0, is_speaking := false }
  interruptions := 0
  last_update_time := 0

/-- A fresh, active session with empty buffers and no firing history. -/
def witnessSession : CoachingSession where
  call_session_id := "CALL-1"
  created_at := 0
  is_active := true
  agent_audio_buffer := []
  customer_audio_buffer := []
  metrics := witnessMetrics
  active_rules := []
  last_suggestion_time := 0
  last_suggestion_type := none

/-- `witnessSession` after `witnessRule` fires at time 100. -/
def witnessSessionFired : CoachingSession :=
  { witnessSession with
      last_suggestion_time := 100
      last_suggestion_type := some "SPEAKING_TOO_FAST"
      active_rules := [("SPEAKING_TOO_FAST", 100)] }

/-- `witnessSession` with `witnessRule` having fired 5 seconds ago, well
inside its 30-second cooldown. -/
def witnessSessionCooling : CoachingSession :=
  { witnessSession with active_rules := [("SPEAKING_TOO_FAST", 95)] }

/-- Concrete instantiation of the C2 theorem: a single always-matching
rule fires on a fresh active session and its firing time is recorded; the
same rule inside its cooldown is skipped and evaluation continues. -/
theorem evaluate_session_fires_spec_witness :
    (∃ rule ∈ [witnessRule],
        create_suggestion "SPEAKING_TOO_FAST" 100 = create_suggestion rule.name 100 ∧
        rule.evaluate witnessSession 100 = some true ∧
        can_trigger rule.name (dictGetD witnessSession.active_rules rule.name 0) 100 = true ∧
        witnessSessionFired.active_rules =
          dictInsert witnessSession.active_rules rule.name 100 ∧
        dictGetD witnessSessionFired.active_rules rule.name 0 = 100) ∧
    evaluateRules [witnessRule] witnessSessionCooling 100 =
      evaluateRules [] witnessSessionCooling 100 :=
  ⟨evaluate_session_fires_spec.1 [witnessRule] witnessSession 100
      (create_suggestion "SPEAKING_TOO_FAST" 100) witnessSessionFired (by rfl),
   evaluate_session_fires_spec.2 witnessRule [] witnessSessionCooling 100 rfl
     (by
       rw [show dictGetD witnessSessionCooling.active_rules witnessRule.name 0 = 95 from rfl,
         can_trigger, show getCooldown witnessRule.name = 30 from rfl]
       norm_num)⟩

/-- Claim C9: a rule whose predicate raises an exception (modelled by a
`none` result) is caught and treated as not triggered — evaluating
`rule :: rest` equals evaluating `rest`, so every subsequent rule is still
evaluated in order — and `evaluateRules` being a total function, the
evaluation call itself propagates nothing. -/
theorem evaluateRules_exception_continues (rule : CoachingRule) (rest : List CoachingRule)
    (session : CoachingSession) (current_time : ℚ)
    (h : rule.evaluate session current_time = none) :
    evaluateRules (rule :: rest) session current_time =
      evaluateRules rest session current_time := by
  rw [evaluateRules, h]

/-- Concrete instantiation of the C9 theorem: a raising rule ahead of an
always-matching rule changes nothing about the rest of the evaluation. -/
theorem evaluateRules_exception_continues_witness :
    evaluateRules [raisingRule, witnessRule] witnessSession 100 =
      evaluateRules [witnessRule] witnessSession 100 :=
  evaluateRules_exception_continues raisingRule [witnessRule] witnessSession 100 rfl

/-! ### Throttler cooldown table vs the rule set (claim C5) -/

/-- Claim C5 counterexample: the liveness probe (`TestRule`, rule id
`TEST_RULE`, declared cooldown 60s, first rule of `ALL_RULES`) has no entry
in the throttler's cooldown table, so the throttler gates it with the
default 20 seconds instead of the spec's 60: thirty seconds after a firing
`can_trigger` already permits it again. -/
theorem throttler_liveness_cooldown_mismatch :
    TestRule ∈ ALL_RULES ∧ TestRule.name = "TEST_RULE" ∧
    TestRule.cooldown_seconds = 60 ∧
    getCooldown TestRule.name = 20 ∧
    can_trigger TestRule.name 10 40 = true ∧ ¬((40 : ℚ) - 10 ≥ 60) := by
  refine ⟨by simp [ALL_RULES], rfl, rfl, rfl, ?_, by norm_num⟩
  rw [can_trigger, show getCooldown TestRule.name = 20 from rfl]
  norm_num

/-- Claim C5 amended: the throttler's cooldown table matches the spec's
per-rule values for the five rules it contains — speaking too fast 30s,
too loud 20s, too soft 25s, interrupting 15s, excess silence 10s — while
the liveness probe (`TEST_RULE`) is absent from the table and is gated
with the default 20-second cooldown (its once-only firing being enforced
by its own predicate instead), and any rule id outside the table falls
back to the default 20-second cooldown. -/
theorem throttler_cooldown_table_spec (rule_name : String) :
    getCooldown "SPEAKING_TOO_FAST" = 30 ∧
    getCooldown "SPEAKING_TOO_LOUD" = 20 ∧
    getCooldown "SPEAKING_TOO_SOFT" = 25 ∧
    getCooldown "INTERRUPTING_CUSTOMER" = 15 ∧
    getCooldown "TOO_MUCH_SILENCE" = 10 ∧
    getCooldown "TEST_RULE" = 20 ∧
    (rule_name ∉ ["SPEAKING_TOO_FAST", "SPEAKING_TOO_LOUD", "SPEAKING_TOO_SOFT",
        "INTERRUPTING_CUSTOMER", "TOO_MUCH_SILENCE"] →
      getCooldown rule_name = 20) := by
  refine ⟨rfl, rfl, rfl, rfl, rfl, rfl, ?_⟩
  intro h
  simp only [List.mem_cons, List.not_mem_nil, or_false, not_or] at h
  obtain ⟨h1, h2, h3, h4, h5⟩ := h
  simp [getCooldown, rule_cooldowns, List.find?_cons,
    Ne.symm h1, Ne.symm h2, Ne.symm h3, Ne.symm h4, Ne.symm h5]

/-- Concrete instantiation of the C5 amended theorem: an unknown rule id
falls back to the default 20-second cooldown. -/
theorem throttler_cooldown_table_spec_witness :
    getCooldown "SOME_FUTURE_RULE" = 20 :=
  (throttler_cooldown_table_spec "SOME_FUTURE_RULE").2.2.2.2.2.2 (by simp)

/-! ### Stream-handler claims -/

/-- A session whose customer buffer already holds exactly `max_chunks`
chunks. -/
def fullBufferSession : CoachingSession :=
  { witnessSession with customer_audio_buffer := List.replicate max_chunks [255] }

/-- Claim C1 (code bug): the configured bound is `max_chunks = 100`
chunks, yet processing one more inbound chunk on a session already at the
bound appends it and evicts nothing, growing the customer buffer to 101:
the unimported name `settings` raises `NameError` immediately after the
append, so the eviction branch of `_process_audio_chunk` never runs. -/
theorem buffer_bound_violated :
    max_chunks = 100 ∧
    fullBufferSession.customer_audio_buffer.length = max_chunks ∧
    (processAudioChunk fullBufferSession "inbound" [255] 0).customer_audio_buffer =
      fullBufferSession.customer_audio_buffer ++ [[255]] ∧
    (processAudioChunk fullBufferSession "inbound" [255] 0).customer_audio_buffer.length =
      max_chunks + 1 := by
  refine ⟨rfl, by simp [fullBufferSession, witnessSession], ?_, ?_⟩
  · simp [processAudioChunk, fullBufferSession, witnessSession]
  · simp [processAudioChunk, fullBufferSession, witnessSession]

/-- A fresh session whose customer channel is marked speaking. -/
def customerSpeakingSession : CoachingSession :=
  { witnessSession with
      metrics := { witnessMetrics with
        customer := { volume_db := 0, wpm := 0, is_speaking := true } } }

/-- Claim C3 (code bug): processing an outbound (agent) chunk while the
customer's speaking flag is true leaves the interruption counter
unchanged — the `NameError` on the unimported `settings` aborts the
handler before the interruption check — and indeed `processAudioChunk`
never modifies the counter for any session, track, chunk or time (so in
particular it never decrements). -/
theorem interruption_counter_unchanged :
    customerSpeakingSession.metrics.customer.is_speaking = true ∧
    (processAudioChunk customerSpeakingSession "outbound" [255] 0).metrics.interruptions =
      customerSpeakingSession.metrics.interruptions ∧
    ∀ (session : CoachingSession) (track : String) (chunk : Chunk) (t : ℚ),
      (processAudioChunk session track chunk t).metrics.interruptions =
        session.metrics.interruptions := by
  refine ⟨rfl, ?_, ?_⟩
  · simp [processAudioChunk, customerSpeakingSession, witnessSession]
  · intro session track chunk t
    unfold processAudioChunk
    split_ifs <;> rfl

end TeleCaller
